import Mathlib

/-!
Verification of the meta-mcp-server request-orchestration core.

The JavaScript sources are shallowly embedded as executable Lean
definitions:

* JS plain objects that the code treats generically (tool `defaultParams`,
  step results, …) are association lists `List (String × JVal)` in own-key
  insertion order, with JS property-write semantics (`setKey`: replace the
  first occurrence in place, else append).
* JS `undefined` field access is `Option`; a record field that the code may
  leave absent is an `Option` field, and JS `===` on such fields is
  `Option` equality (`undefined === undefined` is true).
* Impure inputs (`Date.now`, `Math.random`) are hoisted into parameters;
  logging is ignored except where evaluating a log argument can throw,
  which is modelled explicitly.
* JS numbers appearing here are either small integers and counts (`Nat`)
  or the decimal constants of the confidence formula, modelled as exact
  rationals (`ℚ`).
* A function that can throw returns `Except String`; the string is the
  JS error message.
-/

set_option maxRecDepth 4000

/-- A JavaScript value, as far as the orchestration core inspects one. -/
inductive JVal where
  | s (v : String)
  | i (v : Int)
  | b (v : Bool)
  | undef
  | obj (fields : List (String × JVal))
  | arr (items : List JVal)

/-- A JS plain object: own properties in insertion order. -/
abbrev JObj := List (String × JVal)

/-- Property read `o[key]`: the first (unique in real JS objects) entry wins;
`none` is JS `undefined`. -/
def lookupObj : JObj → String → Option JVal
  | [], _ => none
  | (k, v) :: rest, key => if k = key then some v else lookupObj rest key

/-- Property write `o[key] = v`: update in place preserving key order, else
append a new key at the end. -/
def setKey : JObj → String → JVal → JObj
  | [], k, v => [(k, v)]
  | (k0, v0) :: rest, k, v =>
    if k0 = k then (k0, v) :: rest else (k0, v0) :: setKey rest k v

/-- JS object spread `{ ...target, ...source }` (also `Object.assign` into a
copy): source keys overwrite target keys in place, new keys append. -/
def objAssign (target source : JObj) : JObj :=
  source.foldl (fun acc kv => setKey acc kv.1 kv.2) target

/-- Field read `v[key]` on an arbitrary JS value: objects look keys up,
primitive values yield `undefined` (the executor only indexes results that
are objects or primitives, never `undefined`/`null`). -/
def jvalField : JVal → String → Option JVal
  | JVal.obj fields, key => lookupObj fields key
  | _, _ => none

/-- String interpolation of a possibly-undefined value (`id` fields). -/
def optStr : Option String → String
  | some s => s
  | none => "undefined"

/-- The `INTENT_TYPES` enumeration from `analyzer/index.js`. -/
inductive Intent where
  | FILE_OPERATION
  | DATA_PROCESSING
  | CODE_GENERATION
  | VISUALIZATION
  | KNOWLEDGE_RETRIEVAL
  | TERMINAL_EXECUTION
  | WEB_SEARCH
  | UNKNOWN
deriving DecidableEq, Repr

/-- The string value of each `INTENT_TYPES` member. -/
def intentStr : Intent → String
  | .FILE_OPERATION => "FILE_OPERATION"
  | .DATA_PROCESSING => "DATA_PROCESSING"
  | .CODE_GENERATION => "CODE_GENERATION"
  | .VISUALIZATION => "VISUALIZATION"
  | .KNOWLEDGE_RETRIEVAL => "KNOWLEDGE_RETRIEVAL"
  | .TERMINAL_EXECUTION => "TERMINAL_EXECUTION"
  | .WEB_SEARCH => "WEB_SEARCH"
  | .UNKNOWN => "UNKNOWN"

/-- JS `String.prototype.toLowerCase` (queries here are ASCII). -/
def jsToLower (s : String) : String :=
  ⟨s.data.map Char.toLower⟩

/-- Contiguous-sublist test on character lists. -/
def infixCheck (pat : List Char) : List Char → Bool
  | [] => pat.isEmpty
  | c :: t => pat.isPrefixOf (c :: t) || infixCheck pat t

/-- JS `String.prototype.includes` (substring test). -/
def jsIncludes (s pat : String) : Bool :=
  infixCheck pat.data s.data

/-- The keyword table of `analyzeRequest` lines 34-74, one row per intent in
source order; an intent is pushed when any keyword occurs in the lowercased
query. -/
def intentKeywordTable : List (Intent × List String) :=
  [ (.FILE_OPERATION, ["file", "read", "write", "save", "load", "csv", "json", "txt"]),
    (.DATA_PROCESSING, ["process", "transform", "extract", "convert", "analyze", "calculate"]),
    (.CODE_GENERATION, ["code", "program", "function", "script", "algorithm", "develop"]),
    (.VISUALIZATION, ["visualize", "chart", "plot", "graph", "dashboard", "display"]),
    (.KNOWLEDGE_RETRIEVAL, ["search", "find", "lookup", "retrieve", "get information"]),
    (.TERMINAL_EXECUTION, ["run", "execute", "terminal", "command", "shell", "bash"]),
    (.WEB_SEARCH, ["web", "internet", "online", "website", "url", "http"]) ]

/-- The intents pushed by the keyword scan of `analyzeRequest` (before the
UNKNOWN fallback), in source push order. -/
def detectIntents (query : String) : List Intent :=
  let lowerQuery := jsToLower query
  (intentKeywordTable.filter (fun p => p.2.any (fun kw => jsIncludes lowerQuery kw))).map (·.1)

/-- `analyzeRequest` lines 32-79: detected intents with `[UNKNOWN]` fallback. -/
def classifyIntents (query : String) : List Intent :=
  let detected := detectIntents query
  if detected.isEmpty then [Intent.UNKNOWN] else detected

/-- JS `\w` character class. -/
def isWordChar (c : Char) : Bool :=
  c.isAlphanum || c = '_'

/-- The `[\w-]` class of the file-reference pattern. -/
def isWordDash (c : Char) : Bool :=
  isWordChar c || c = '-'

/-- Word-ness of the character at an index, out of range counting as
non-word. -/
def wordAt (s : List Char) (i : Nat) : Bool :=
  match s.get? i with
  | some c => isWordChar c
  | none => false

/-- JS regex `\b` at a position: word-ness changes between the previous and
the current character. -/
def boundaryAt (s : List Char) (i : Nat) : Bool :=
  (match i with
   | 0 => false
   | j + 1 => wordAt s j) != wordAt s i

/-- One alternative of a `\b(...)\b` pattern matches literally at index `i`
with boundaries on both sides. -/
def matchesAlt (s : List Char) (i : Nat) (alt : List Char) : Bool :=
  alt.isPrefixOf (s.drop i) && boundaryAt s i && boundaryAt s (i + alt.length)

/-- `pattern.test(text)` for the `\b(a1|a2|...)\b` patterns of
`extractCodeLanguages`. -/
def regexWordTest (alts : List String) (s : String) : Bool :=
  let cs := s.data
  (List.range (cs.length + 1)).any (fun i => alts.any (fun a => matchesAlt cs i a.data))

/-- The language pattern list of `extractCodeLanguages`, alternatives and
pushed language name, in source order. -/
def languagePatternTable : List (List String × String) :=
  [ (["python", "py"], "python"),
    (["javascript", "js", "node"], "javascript"),
    (["typescript", "ts"], "typescript"),
    (["java"], "java"),
    (["c++", "cpp"], "cpp"),
    (["c#", "csharp"], "csharp"),
    (["ruby", "rb"], "ruby"),
    (["go", "golang"], "go"),
    (["php"], "php"),
    (["sql"], "sql"),
    (["bash", "shell"], "bash"),
    (["rust"], "rust"),
    (["html"], "html"),
    (["css"], "css") ]

/-- `extractCodeLanguages`: each pattern tested against the lowercased query
(the `i` flag is redundant on lowercased input). -/
def extractCodeLanguages (query : String) : List String :=
  let lowerQuery := jsToLower query
  (languagePatternTable.filter (fun p => regexWordTest p.1 lowerQuery)).map (·.2)

/-- The extension alternation of the file pattern
`/\b([\w-]+\.(csv|json|txt|md|py|js|html|css|xml|pdf))\b/g`, in source
order. -/
def fileExtensionAlternatives : List String :=
  ["csv", "json", "txt", "md", "py", "js", "html", "css", "xml", "pdf"]

/-- Try the extension alternatives in pattern order at the text after the
dot; the trailing `\b` requires the character after the extension (whose own
last character is always a word character) to be a non-word character or the
end. -/
def tryExtensions : List String → List Char → Option String
  | [], _ => none
  | ext :: more, rest2 =>
    if ext.data.isPrefixOf rest2 && !(wordAt rest2 ext.data.length)
    then some ext
    else tryExtensions more rest2

/-- Attempt the file pattern at the current position. `prevIsWord` is the
word-ness of the character before this position (for the leading `\b`).
The greedy `[\w-]+` run cannot backtrack usefully because `.` is not in
`[\w-]`, so the pattern matches iff the maximal run is followed by a dot
and a listed extension with a trailing boundary. Returns the matched text
and the remaining input. -/
def fileMatchAt (prevIsWord : Bool) (l : List Char) : Option (List Char × List Char) :=
  let headIsWord := match l with
    | c :: _ => isWordChar c
    | [] => false
  if prevIsWord == headIsWord then none
  else
    let run := l.takeWhile isWordDash
    if run.isEmpty then none
    else
      match l.drop run.length with
      | '.' :: rest2 =>
        match tryExtensions fileExtensionAlternatives rest2 with
        | some ext => some (run ++ '.' :: ext.data, rest2.drop ext.data.length)
        | none => none
      | _ => none

/-- The `matchAll` loop: scan left to right, emitting non-overlapping
matches and resuming after each match (the last matched character is always
a word character). Fuel is the remaining length; every step consumes at
least one character. -/
def scanFilesAux : Nat → Bool → List Char → List String
  | 0, _, _ => []
  | _, _, [] => []
  | fuel + 1, prevIsWord, c :: rest =>
    match fileMatchAt prevIsWord (c :: rest) with
    | some (m, rest2) => m.asString :: scanFilesAux fuel true rest2
    | none => scanFilesAux fuel (isWordChar c) rest

/-- `extractFileReferences`: all matches of the file pattern over the raw
(not lowercased) query. -/
def extractFileReferences (query : String) : List String :=
  scanFilesAux query.data.length false query.data

/-- The keyword buckets of `extractDataTypes`, in source push order. -/
def dataTypeKeywordTable : List (String × List String) :=
  [ ("tabular", ["csv", "spreadsheet", "excel", "table"]),
    ("json", ["json", "object", "dictionary"]),
    ("text", ["text", "string", "document"]),
    ("image", ["image", "picture", "photo", "graphic"]) ]

/-- `extractDataTypes`. -/
def extractDataTypes (query : String) : List String :=
  let lowerQuery := jsToLower query
  (dataTypeKeywordTable.filter (fun p => p.2.any (fun kw => jsIncludes lowerQuery kw))).map (·.1)

/-- The keyword buckets of `extractVisualizationTypes`, in source push
order. -/
def visualizationKeywordTable : List (String × List String) :=
  [ ("bar_chart", ["bar", "column"]),
    ("line_chart", ["line", "trend"]),
    ("pie_chart", ["pie", "donut"]),
    ("scatter_plot", ["scatter", "point"]),
    ("heatmap", ["heatmap", "heat map"]),
    ("histogram", ["histogram"]),
    ("box_plot", ["box plot", "boxplot"]) ]

/-- `extractVisualizationTypes`. -/
def extractVisualizationTypes (query : String) : List String :=
  let lowerQuery := jsToLower query
  (visualizationKeywordTable.filter (fun p => p.2.any (fun kw => jsIncludes lowerQuery kw))).map (·.1)

/-- The `entities` record assembled in `analyzeRequest` lines 83-88. -/
structure Entities where
  files : List String
  dataTypes : List String
  codeLanguages : List String
  visualizationTypes : List String
deriving DecidableEq, Repr

/-- `analyzeRequest` entity extraction. -/
def analyzeEntities (query : String) : Entities :=
  { files := extractFileReferences query
    dataTypes := extractDataTypes query
    codeLanguages := extractCodeLanguages query
    visualizationTypes := extractVisualizationTypes query }

/-- `calculateConfidence`: the JS double constants 0.4 and 0.15 are
modelled as the exact rationals they denote. -/
def calculateConfidence (intents : List Intent) (entities : Entities) : ℚ :=
  let confidence : ℚ := 0
  let confidence := if !(intents.contains Intent.UNKNOWN) then confidence + 2/5 else confidence
  let confidence := if entities.files.length > 0 then confidence + 3/20 else confidence
  let confidence := if entities.dataTypes.length > 0 then confidence + 3/20 else confidence
  let confidence := if entities.codeLanguages.length > 0 then confidence + 3/20 else confidence
  let confidence := if entities.visualizationTypes.length > 0 then confidence + 3/20 else confidence
  min confidence 1

/-- The `capabilities` object of a tool descriptor; each field may be
absent. `capabilities.intents` holds raw strings as in the JSON/JS tool
definition files, compared against `intentStr` of a classified intent. -/
structure Capabilities where
  intents : Option (List String)
  fileTypes : Option (List String)
  dataTypes : Option (List String)
  languages : Option (List String)
  visualizationTypes : Option (List String)
deriving DecidableEq

/-- The `executionConfig` object of a declarative tool. -/
structure ExecConfig where
  type : String
  method : Option String
  url : Option String
  command : Option String
deriving DecidableEq

/-- A tool descriptor as stored in the registry. Every field the core can
find absent is an `Option`. Descriptors are data (loaded from `.tool.json`
files or data-only `.tool.js` modules, like the two shipped examples), so
no function-valued `execute` property is modelled; `executeTool`'s first
branch, which fires only for such a property, is vacuous on descriptor
data. -/
structure ToolDescriptor where
  id : Option String
  name : Option String
  version : Option String
  description : Option String
  type : Option String
  apiEndpoint : Option String
  capabilities : Option Capabilities
  defaultParams : Option JObj
  outputs : Option JObj
  executionConfig : Option ExecConfig

/-- `Object.assign(existing, tool)` on the fixed descriptor schema: a field
present on the source overwrites the target's, an absent source field
leaves the target's (shallow merge: `capabilities` and the other nested
objects are replaced whole, not merged). -/
def mergeTool (existing tool : ToolDescriptor) : ToolDescriptor :=
  { id := tool.id <|> existing.id
    name := tool.name <|> existing.name
    version := tool.version <|> existing.version
    description := tool.description <|> existing.description
    type := tool.type <|> existing.type
    apiEndpoint := tool.apiEndpoint <|> existing.apiEndpoint
    capabilities := tool.capabilities <|> existing.capabilities
    defaultParams := tool.defaultParams <|> existing.defaultParams
    outputs := tool.outputs <|> existing.outputs
    executionConfig := tool.executionConfig <|> existing.executionConfig }

/-- `ToolRegistry.registerTool`: `find` the first entry whose `id` equals
(`===`) the incoming tool's `id`, `Object.assign` into it in place, else
push at the end. -/
def registerTool : List ToolDescriptor → ToolDescriptor → List ToolDescriptor
  | [], tool => [tool]
  | t :: ts, tool =>
    if t.id = tool.id then mergeTool t tool :: ts
    else t :: registerTool ts tool

/-- JS falsiness of an optional string (`!definition.id` is true for a
missing id and for the empty string). -/
def jsFalsyStr : Option String → Bool
  | none => true
  | some s => s.isEmpty

/-- The slug `name.toLowerCase().replace(/[^a-z0-9]+/g, '-')`: every maximal
run of characters outside `[a-z0-9]` becomes one dash (`inRun` tracks being
inside such a run). -/
def slugAux (inRun : Bool) : List Char → List Char
  | [] => []
  | c :: rest =>
    if c.isLower || c.isDigit then c :: slugAux false rest
    else if inRun then slugAux true rest
    else '-' :: slugAux true rest

/-- Modelled after `generateToolDefinition` lines 27-30 (`tool-generator`):
derive a missing (or empty) id by slugifying the lowercased name; a missing
name makes the JS `definition.name.toLowerCase()` call throw. The rest of
`generateToolDefinition` is file templating, outside the core. -/
def deriveToolId (definition : ToolDescriptor) : Except String ToolDescriptor :=
  if jsFalsyStr definition.id then
    match definition.name with
    | none => Except.error "TypeError: Cannot read properties of undefined (reading \x27toLowerCase\x27)"
    | some n => Except.ok { definition with id := some (slugAux false (jsToLower n).data).asString }
  else Except.ok definition

/-- The example tool `file-processor.tool.js` shipped with the repository. -/
def fileProcessorTool : ToolDescriptor :=
  { id := some "file-processor"
    name := some "File Processor"
    version := some "0.1.0"
    description := some "A tool for reading and processing various file types"
    type := some "mcp-server"
    apiEndpoint := some "http://localhost:3001/api/process"
    capabilities := some
      { intents := some ["FILE_OPERATION", "DATA_PROCESSING"]
        fileTypes := some ["csv", "json", "txt"]
        dataTypes := some ["tabular", "json", "text"]
        languages := none
        visualizationTypes := none }
    defaultParams := some [("filePath", JVal.s ""), ("outputFormat", JVal.s "json")]
    outputs := some [("success", JVal.b true), ("result", JVal.obj []), ("processingTime", JVal.s "0ms")]
    executionConfig := some
      { type := "http", method := some "POST",
        url := some "http://localhost:3001/api/process", command := none } }

/-- The example tool `visualization-creator.tool.js` shipped with the
repository. -/
def visualizationCreatorTool : ToolDescriptor :=
  { id := some "visualization-creator"
    name := some "Visualization Creator"
    version := some "0.1.0"
    description := some "A tool for creating various types of data visualizations"
    type := some "mcp-server"
    apiEndpoint := some "http://localhost:3002/api/visualize"
    capabilities := some
      { intents := some ["VISUALIZATION", "DATA_PROCESSING"]
        fileTypes := some ["csv", "json"]
        dataTypes := some ["tabular", "json"]
        languages := none
        visualizationTypes := some
          ["bar_chart", "line_chart", "pie_chart", "scatter_plot", "heatmap", "histogram"] }
    defaultParams := some
      [("data", JVal.obj []), ("type", JVal.s "bar_chart"), ("title", JVal.s "Visualization"),
       ("width", JVal.i 800), ("height", JVal.i 600), ("colorScheme", JVal.s "default")]
    outputs := some
      [("success", JVal.b true), ("visualizationPath", JVal.s ""), ("format", JVal.s "svg")]
    executionConfig := some
      { type := "http", method := some "POST",
        url := some "http://localhost:3002/api/visualize", command := none } }

/-- A matched tool as pushed by `matchToolsToIntents`. -/
structure MatchedTool where
  tool : ToolDescriptor
  score : Nat

/-- JS `String.prototype.split` with a single-character separator. -/
def splitOnCharAux (sep : Char) : List Char → List Char → List (List Char)
  | [], acc => [acc.reverse]
  | c :: rest, acc =>
    if c = sep then acc.reverse :: splitOnCharAux sep rest []
    else splitOnCharAux sep rest (c :: acc)

/-- `s.split(sep)` for a one-character separator string. -/
def jsSplitChar (s : String) (sep : Char) : List String :=
  (splitOnCharAux sep s.data []).map List.asString

/-- `file.split(\x27.\x27).pop()`: the text after the last dot (the whole
name when there is no dot; `split` never yields an empty array). -/
def splitPop (file : String) : String :=
  (jsSplitChar file '.').getLastD ""

/-- The extension key used by `calculateToolMatchScore`:
`file.split(\x27.\x27).pop().toLowerCase()`. -/
def jsExtension (file : String) : String :=
  jsToLower (splitPop file)

/-- `calculateToolMatchScore`: each capability block contributes only when
declared, counting entity values present in the tool's set. -/
def calculateToolMatchScore (tool : ToolDescriptor) (entities : Entities) : Nat :=
  let score := 0
  let score := score + (match tool.capabilities with
    | some caps => match caps.fileTypes with
      | some ft => (entities.files.filter (fun f => ft.contains (jsExtension f))).length * 10
      | none => 0
    | none => 0)
  let score := score + (match tool.capabilities with
    | some caps => match caps.dataTypes with
      | some dt => (entities.dataTypes.filter (fun d => dt.contains d)).length * 5
      | none => 0
    | none => 0)
  let score := score + (match tool.capabilities with
    | some caps => match caps.languages with
      | some langs => (entities.codeLanguages.filter (fun l => langs.contains l)).length * 8
      | none => 0
    | none => 0)
  let score := score + (match tool.capabilities with
    | some caps => match caps.visualizationTypes with
      | some vt => (entities.visualizationTypes.filter (fun v => vt.contains v)).length * 7
      | none => 0
    | none => 0)
  score

/-- The intent-overlap candidacy test of `matchToolsToIntents` (and the
filter of `findBestToolForIntent`): the tool declares `capabilities.intents`
and it contains the given intent. -/
def declaresIntent (tool : ToolDescriptor) (intent : Intent) : Bool :=
  match tool.capabilities with
  | some caps =>
    match caps.intents with
    | some ci => ci.contains (intentStr intent)
    | none => false
  | none => false

/-- JS `Array.prototype.sort` with comparator `(a, b) => b.score - a.score`:
a stable descending sort by score, i.e. insertion sort inserting each
element after all earlier elements of equal or higher score. -/
def sortByScoreDesc (l : List MatchedTool) : List MatchedTool :=
  List.insertionSort (fun a b => b.score ≤ a.score) l

/-- `matchToolsToIntents`: candidates are registry tools (in registry
order) with intent overlap and strictly positive score; the result is
sorted by score, descending. -/
def matchToolsToIntents (registryTools : List ToolDescriptor) (intents : List Intent)
    (entities : Entities) : List MatchedTool :=
  let candidates := registryTools.filterMap (fun tool =>
    if intents.any (fun intent => declaresIntent tool intent) then
      let score := calculateToolMatchScore tool entities
      if score > 0 then some { tool := tool, score := score } else none
    else none)
  sortByScoreDesc candidates

/-- The analysis record returned by `analyzeRequest` (timestamp omitted as
an impure environment read). -/
structure Analysis where
  query : String
  intents : List Intent
  entities : Entities
  matchedTools : List MatchedTool
  confidence : ℚ

/-- `analyzeRequest`, with the registry singleton's state passed
explicitly. -/
def analyzeRequest (registryTools : List ToolDescriptor) (query : String) : Analysis :=
  let intents := classifyIntents query
  let entities := analyzeEntities query
  { query := query
    intents := intents
    entities := entities
    matchedTools := matchToolsToIntents registryTools intents entities
    confidence := calculateConfidence intents entities }

/-- One field mapping of a data-flow edge. -/
structure Mapping where
  fromParam : String
  toParam : String
deriving DecidableEq

/-- One value of the `dataFlow` object (`from`/`to` are Lean keywords, so
the fields are `fromStep`/`toStep`). The executor only reads the values
(`Object.values`), so the map is kept as its value list in key insertion
order. -/
structure DataFlowEdge where
  fromStep : String
  toStep : String
  mappings : List Mapping

/-- A step of an execution plan. -/
structure PlanStep where
  stepId : String
  intent : Intent
  toolId : Option String
  toolName : Option String
  inputParams : JObj
  outputParams : JObj

/-- One entry of `suggestToolsToCreate`'s result. -/
structure Suggestion where
  intent : Intent
  description : String
  template : ToolDescriptor

/-- The plan object built by `createExecutionPlan`. The failure branch
returns an object with only `canExecute`, `reason` and `suggestedTools`,
so every other field is optional. Timestamp omitted (impure). -/
structure ExecutionPlan where
  planId : Option String
  canExecute : Bool
  steps : Option (List PlanStep)
  dataFlow : Option (List DataFlowEdge)
  unaddressedIntents : Option (List Intent)
  reason : Option String
  suggestedTools : Option (List Suggestion)

/-- The `params` object accumulated by the `switch` of
`determineInputParams` before merging with the tool's defaults. -/
def entityParams (intent : Intent) (entities : Entities) : JObj :=
  match intent with
  | .FILE_OPERATION =>
    (match entities.files with
     | [] => []
     | f :: _ => [("filePath", JVal.s f)])
  | .DATA_PROCESSING =>
    (match entities.files with
     | [] => []
     | f :: _ => [("inputFile", JVal.s f)]) ++
    (match entities.dataTypes with
     | [] => []
     | d :: _ => [("dataType", JVal.s d)])
  | .CODE_GENERATION =>
    (match entities.codeLanguages with
     | [] => []
     | l :: _ => [("language", JVal.s l)])
  | .VISUALIZATION =>
    (match entities.files with
     | [] => []
     | f :: _ => [("dataSource", JVal.s f)]) ++
    (match entities.visualizationTypes with
     | [] => []
     | v :: _ => [("visualizationType", JVal.s v)])
  | _ => []

/-- `determineInputParams`: the entity-derived `params`, then
`{ ...tool.defaultParams, ...params }` when the tool declares defaults
(so `params` overwrites colliding keys of `defaultParams`). -/
def determineInputParams (intent : Intent) (entities : Entities) (tool : ToolDescriptor) : JObj :=
  let params := entityParams intent entities
  match tool.defaultParams with
  | some dp => objAssign dp params
  | none => params

/-- `determineOutputParams`: the tool's declared outputs if present, else
an intent-specific generic schema. -/
def determineOutputParams (intent : Intent) (tool : ToolDescriptor) : JObj :=
  match tool.outputs with
  | some outs => outs
  | none =>
    match intent with
    | .FILE_OPERATION => [("success", JVal.b true), ("filePath", JVal.s "")]
    | .DATA_PROCESSING => [("success", JVal.b true), ("result", JVal.obj [])]
    | .CODE_GENERATION => [("success", JVal.b true), ("code", JVal.s "")]
    | .VISUALIZATION => [("success", JVal.b true), ("visualizationPath", JVal.s "")]
    | .KNOWLEDGE_RETRIEVAL => [("success", JVal.b true), ("knowledge", JVal.obj [])]
    | .TERMINAL_EXECUTION => [("success", JVal.b true), ("output", JVal.s "")]
    | .WEB_SEARCH => [("success", JVal.b true), ("results", JVal.arr [])]
    | .UNKNOWN => [("success", JVal.b true)]

/-- `findBestToolForIntent`: filter the matched tools declaring the intent,
sort by score descending (stable), take the first. -/
def findBestToolForIntent (intent : Intent) (matchedTools : List MatchedTool) : Option MatchedTool :=
  (sortByScoreDesc (matchedTools.filter (fun mt => declaresIntent mt.tool intent))).head?

/-- The step object pushed in `createExecutionPlan` (line 38), with
`stepId = step_<steps.length + 1>`. -/
def mkPlanStep (n : Nat) (intent : Intent) (entities : Entities) (mt : MatchedTool) : PlanStep :=
  { stepId := "step_" ++ toString n
    intent := intent
    toolId := mt.tool.id
    toolName := mt.tool.name
    inputParams := determineInputParams intent entities mt.tool
    outputParams := determineOutputParams intent mt.tool }

/-- The intent loop of `createExecutionPlan` lines 31-49, accumulating the
`steps` array. -/
def buildSteps (entities : Entities) (matchedTools : List MatchedTool) :
    List Intent → List PlanStep → List PlanStep
  | [], steps => steps
  | intent :: rest, steps =>
    if intent = Intent.UNKNOWN then buildSteps entities matchedTools rest steps
    else
      match findBestToolForIntent intent matchedTools with
      | some mt =>
        buildSteps entities matchedTools rest (steps ++ [mkPlanStep (steps.length + 1) intent entities mt])
      | none => buildSteps entities matchedTools rest steps

/-- `createDataFlowMap`: one edge per consecutive step pair, mapping field
`result` to field `input`. -/
def createDataFlowMap : List PlanStep → List DataFlowEdge
  | s1 :: s2 :: rest =>
    { fromStep := s1.stepId, toStep := s2.stepId,
      mappings := [{ fromParam := "result", toParam := "input" }] } ::
      createDataFlowMap (s2 :: rest)
  | _ => []

/-- `[...new Set(xs)]`: deduplicate keeping first occurrences in order. -/
def dedupKeepFirst (seen : List String) : List String → List String
  | [] => []
  | x :: rest =>
    if seen.contains x then dedupKeepFirst seen rest
    else x :: dedupKeepFirst (x :: seen) rest

/-- JS `String.prototype.replace` with a plain-string search value: replace
the first occurrence only. -/
def replaceFirstAux (pat rep : List Char) : List Char → List Char
  | [] => []
  | c :: t =>
    if pat.isPrefixOf (c :: t) then rep ++ (c :: t).drop pat.length
    else c :: replaceFirstAux pat rep t

/-- `s.replace(pat, rep)` for plain strings. -/
def jsReplaceFirst (s pat rep : String) : String :=
  ⟨replaceFirstAux pat.data rep.data s.data⟩

/-- The human-readable intent phrase
`intent.toLowerCase().replace(\x27_\x27, \x27 \x27)`. -/
def intentPhrase (intent : Intent) : String :=
  jsReplaceFirst (jsToLower (intentStr intent)) "_" " "

/-- The suggestion description of `suggestToolsToCreate` lines 237-255. -/
def suggestionDescription (intent : Intent) (entities : Entities) : String :=
  let description := "A tool that can handle " ++ intentPhrase intent
  let description :=
    if intent = Intent.FILE_OPERATION && entities.files.length > 0 then
      description ++ " for " ++
        String.intercalate ", " (dedupKeepFirst [] (entities.files.map splitPop)) ++ " files"
    else description
  let description :=
    if intent = Intent.DATA_PROCESSING && entities.dataTypes.length > 0 then
      description ++ " with " ++ String.intercalate ", " entities.dataTypes ++ " data"
    else description
  let description :=
    if intent = Intent.CODE_GENERATION && entities.codeLanguages.length > 0 then
      description ++ " in " ++ String.intercalate ", " entities.codeLanguages
    else description
  let description :=
    if intent = Intent.VISUALIZATION && entities.visualizationTypes.length > 0 then
      description ++ " for " ++ String.intercalate ", " entities.visualizationTypes ++ " visualizations"
    else description
  description

/-- `word.charAt(0) + word.slice(1).toLowerCase()` of the template name
builder. -/
def wordCap (w : String) : String :=
  match w.data with
  | [] => ""
  | c :: rest => ⟨c :: rest.map Char.toLower⟩

/-- `generateToolTemplate`: the base template plus the per-intent
customization of capabilities, default params and outputs. -/
def generateToolTemplate (intent : Intent) (entities : Entities) : ToolDescriptor :=
  let baseIntents : Option (List String) := some [intentStr intent]
  let custom : Option (List String) × Option (List String) × Option (List String) ×
      Option (List String) × JObj × JObj :=
    match intent with
    | .FILE_OPERATION =>
      (some (entities.files.map splitPop), none, none, none,
       [("filePath", JVal.s "")], [("success", JVal.b true), ("filePath", JVal.s "")])
    | .DATA_PROCESSING =>
      (none, some entities.dataTypes, none, none,
       [("inputData", JVal.obj [])], [("success", JVal.b true), ("result", JVal.obj [])])
    | .CODE_GENERATION =>
      (none, none, some entities.codeLanguages, none,
       [("prompt", JVal.s "")], [("success", JVal.b true), ("code", JVal.s "")])
    | .VISUALIZATION =>
      (none, none, none, some entities.visualizationTypes,
       [("data", JVal.obj [])], [("success", JVal.b true), ("visualizationPath", JVal.s "")])
    | .KNOWLEDGE_RETRIEVAL =>
      (none, none, none, none,
       [("query", JVal.s "")], [("success", JVal.b true), ("knowledge", JVal.obj [])])
    | .TERMINAL_EXECUTION =>
      (none, none, none, none,
       [("command", JVal.s "")], [("success", JVal.b true), ("output", JVal.s "")])
    | .WEB_SEARCH =>
      (none, none, none, none,
       [("query", JVal.s "")], [("success", JVal.b true), ("results", JVal.arr [])])
    | .UNKNOWN => (none, none, none, none, [], [])
  { id := some (jsToLower (intentStr intent) ++ "_tool")
    name := some (String.intercalate " " ((jsSplitChar (intentStr intent) '_').map wordCap) ++ " Tool")
    version := some "0.1.0"
    description := some ("A tool for " ++ intentPhrase intent)
    type := none
    apiEndpoint := none
    capabilities := some
      { intents := baseIntents, fileTypes := custom.1, dataTypes := custom.2.1,
        languages := custom.2.2.1, visualizationTypes := custom.2.2.2.1 }
    defaultParams := some custom.2.2.2.2.1
    outputs := some custom.2.2.2.2.2
    executionConfig := none }

/-- `suggestToolsToCreate`: one suggestion per non-UNKNOWN intent (the
argument here is always an array). -/
def suggestToolsToCreate (intents : List Intent) (entities : Entities) : List Suggestion :=
  (intents.filter (fun i => i ≠ Intent.UNKNOWN)).map (fun intent =>
    { intent := intent
      description := suggestionDescription intent entities
      template := generateToolTemplate intent entities })

/-- `createExecutionPlan`, with the impure `generatePlanId` hoisted into
the `planId` parameter and the timestamp omitted. -/
def createExecutionPlan (planId : String) (analysis : Analysis) : ExecutionPlan :=
  if analysis.matchedTools.isEmpty then
    { planId := none
      canExecute := false
      steps := none
      dataFlow := none
      unaddressedIntents := none
      reason := some "No suitable tools found"
      suggestedTools := some (suggestToolsToCreate analysis.intents analysis.entities) }
  else
    let steps := buildSteps analysis.entities analysis.matchedTools analysis.intents []
    let unaddressed := analysis.intents.filter
      (fun i => i ≠ Intent.UNKNOWN && (findBestToolForIntent i analysis.matchedTools).isNone)
    { planId := some planId
      canExecute := decide (steps.length > 0)
      steps := some steps
      dataFlow := some (createDataFlowMap steps)
      unaddressedIntents := if unaddressed.length > 0 then some unaddressed else none
      reason := none
      suggestedTools :=
        if unaddressed.length > 0 then some (suggestToolsToCreate unaddressed analysis.entities)
        else none }

/-- One entry of the executor's `stepResults` object. -/
structure StepResult where
  success : Bool
  result : Option JVal
  error : Option String

/-- The `stepResults` object: entries keyed by stepId in insertion order. -/
def StepResults := List (String × StepResult)

/-- Property read on the `stepResults` object. -/
def lookupSR : List (String × StepResult) → String → Option StepResult
  | [], _ => none
  | (k, v) :: rest, key => if k = key then some v else lookupSR rest key

/-- Property write `stepResults[stepId] = r`. -/
def setSR : List (String × StepResult) → String → StepResult → List (String × StepResult)
  | [], k, v => [(k, v)]
  | (k0, v0) :: rest, k, v =>
    if k0 = k then (k0, v) :: rest else (k0, v0) :: setSR rest k v

/-- The object returned by `executeRequest`. The `canExecute`-false branch
returns only `success`, `reason` and `suggestedTools`, so the other fields
are optional. Timestamp omitted (impure). -/
structure ExecutionResult where
  planId : Option String
  success : Bool
  stepResults : Option (List (String × StepResult))
  error : Option String
  reason : Option String
  suggestedTools : Option (List Suggestion)

/-- `getToolInstance`: find the tool by id (`===` on possibly-undefined
ids) in the registry. -/
def getToolInstance (registryTools : List ToolDescriptor) (toolId : Option String) :
    Option ToolDescriptor :=
  registryTools.find? (fun tool => tool.id = toolId)

/-- `transformInputParams`: copy the step's declared inputs, then for every
data-flow edge into this step whose source step has a successful result,
copy each mapped field that is present on the source result. -/
def transformInputParams (step : PlanStep) (stepResults : List (String × StepResult))
    (dataFlow : List DataFlowEdge) : JObj :=
  let connections := dataFlow.filter (fun flow => flow.toStep = step.stepId)
  connections.foldl (fun inputParams connection =>
    match lookupSR stepResults connection.fromStep with
    | none => inputParams
    | some sourceStepResult =>
      if !sourceStepResult.success then inputParams
      else
        connection.mappings.foldl (fun inputParams mapping =>
          match jvalField (sourceStepResult.result.getD JVal.undef) mapping.fromParam with
          | some sourceValue => setKey inputParams mapping.toParam sourceValue
          | none => inputParams) inputParams)
    step.inputParams

/-- `executeHttpTool` (simulated HTTP execution). -/
def executeHttpTool (params : JObj) : JVal :=
  JVal.obj [("status", JVal.s "success"),
            ("message", JVal.s "HTTP tool executed successfully"),
            ("params", JVal.obj params)]

/-- `executeCommandLineTool` (simulated command-line execution). -/
def executeCommandLineTool (params : JObj) : JVal :=
  JVal.obj [("status", JVal.s "success"),
            ("message", JVal.s "Command-line tool executed successfully"),
            ("params", JVal.obj params)]

/-- `executeDeclarativeTool`: dispatch on `executionConfig.type`. -/
def executeDeclarativeTool (config : ExecConfig) (params : JObj) : Except String JVal :=
  match config.type with
  | "http" => Except.ok (executeHttpTool params)
  | "command-line" => Except.ok (executeCommandLineTool params)
  | other => Except.error ("Unknown execution type: " ++ other)

/-- `executeMcpServer`: requires a declared `apiEndpoint`, then returns the
simulated result. -/
def executeMcpServer (tool : ToolDescriptor) (_params : JObj) : Except String JVal :=
  match tool.apiEndpoint with
  | none =>
    Except.error ("MCP server " ++ optStr tool.id ++ " doesn\x27t have an API endpoint")
  | some _ =>
    Except.ok (JVal.obj
      [("status", JVal.s "success"),
       ("message", JVal.s "MCP server executed successfully"),
       ("result", JVal.obj
         [("data", JVal.obj []),
          ("metadata", JVal.obj
            [("processingTime", JVal.s "50ms"),
             ("server", match tool.id with
               | some i => JVal.s i
               | none => JVal.undef)])])])

/-- `executeTool`: the strategy priority is (i) a callable `execute`
property — vacuous for descriptor data, see `ToolDescriptor` — then (ii) a
declarative `executionConfig`, then (iii) the `mcp-server` type. -/
def executeTool (tool : ToolDescriptor) (params : JObj) : Except String JVal :=
  match tool.executionConfig with
  | some config => executeDeclarativeTool config params
  | none =>
    if tool.type = some "mcp-server" then executeMcpServer tool params
    else
      Except.error ("Tool " ++ optStr tool.id ++ " doesn\x27t have a valid execution mechanism")

/-- The per-step loop of `executeRequest` lines 30-73, accumulating
`stepResults` and stopping (`break`) at the first failure. A missing tool
records and reports `Tool <id> not found`; everything thrown inside the
`try` (including `Object.values(plan.dataFlow)` throwing when `dataFlow` is
absent) is caught, recorded, and reported as `Error in step <id>: <msg>`.
Returns (stepResults, overallSuccess, errorMessage). -/
def execSteps (registryTools : List ToolDescriptor) (dataFlow : Option (List DataFlowEdge)) :
    List PlanStep → List (String × StepResult) →
    List (String × StepResult) × Bool × Option String
  | [], stepResults => (stepResults, true, none)
  | step :: rest, stepResults =>
    match getToolInstance registryTools step.toolId with
    | none =>
      let msg := "Tool " ++ optStr step.toolId ++ " not found"
      (setSR stepResults step.stepId { success := false, result := none, error := some msg },
       false, some msg)
    | some tool =>
      match dataFlow with
      | none =>
        let msg := "TypeError: Cannot convert undefined or null to object"
        (setSR stepResults step.stepId { success := false, result := none, error := some msg },
         false, some ("Error in step " ++ step.stepId ++ ": " ++ msg))
      | some flows =>
        let inputParams := transformInputParams step stepResults flows
        match executeTool tool inputParams with
        | Except.error msg =>
          (setSR stepResults step.stepId { success := false, result := none, error := some msg },
           false, some ("Error in step " ++ step.stepId ++ ": " ++ msg))
        | Except.ok result =>
          execSteps registryTools dataFlow rest
            (setSR stepResults step.stepId { success := true, result := some result, error := none })

/-- `executeRequest`, with the registry singleton's state passed
explicitly. The entry log statement evaluates `plan.steps.length` before
the `canExecute` guard, so a plan without a `steps` array throws a
TypeError out of the executor. -/
def executeRequest (registryTools : List ToolDescriptor) (plan : ExecutionPlan) :
    Except String ExecutionResult :=
  match plan.steps with
  | none => Except.error "TypeError: Cannot read properties of undefined (reading \x27length\x27)"
  | some steps =>
    if !plan.canExecute then
      Except.ok
        { planId := none
          success := false
          stepResults := none
          error := none
          reason := some ((plan.reason).getD "Plan cannot be executed")
          suggestedTools := plan.suggestedTools }
    else
      let r := execSteps registryTools plan.dataFlow steps []
      Except.ok
        { planId := plan.planId
          success := r.2.1
          stepResults := some r.1
          error := r.2.2
          reason := none
          suggestedTools := none }

/-! ## Registry lemmas -/

lemma opt_orElse_self {α : Type} (a : Option α) : (a <|> a) = a := by
  cases a <;> rfl

lemma opt_orElse_absorb {α : Type} (a b : Option α) : (a <|> (a <|> b)) = (a <|> b) := by
  cases a <;> rfl

lemma mergeTool_self (t : ToolDescriptor) : mergeTool t t = t := by
  simp [mergeTool, opt_orElse_self]

lemma mergeTool_merge (e t : ToolDescriptor) : mergeTool (mergeTool e t) t = mergeTool e t := by
  simp [mergeTool, opt_orElse_absorb]

lemma mergeTool_id_of_eq (e t : ToolDescriptor) (h : e.id = t.id) :
    (mergeTool e t).id = t.id := by
  simp [mergeTool, h, opt_orElse_self]

lemma registerTool_update (pre post : List ToolDescriptor) (e t : ToolDescriptor)
    (he : e.id = t.id) (hpre : ∀ x ∈ pre, x.id ≠ t.id) :
    registerTool (pre ++ e :: post) t = pre ++ mergeTool e t :: post := by
  induction pre with
  | nil => simp [registerTool, he]
  | cons p ps ih =>
    have hp : p.id ≠ t.id := hpre p (List.mem_cons_self p ps)
    simp only [List.cons_append, registerTool, hp, if_neg hp]
    exact congrArg (p :: ·) (ih (fun x hx => hpre x (List.mem_cons_of_mem p hx)))

lemma registerTool_append (l : List ToolDescriptor) (t : ToolDescriptor)
    (h : ∀ x ∈ l, x.id ≠ t.id) :
    registerTool l t = l ++ [t] := by
  induction l with
  | nil => rfl
  | cons a as ih =>
    have ha : a.id ≠ t.id := h a (List.mem_cons_self a as)
    simp only [registerTool, if_neg ha, List.cons_append]
    exact congrArg (a :: ·) (ih (fun x hx => h x (List.mem_cons_of_mem a hx)))

lemma registerTool_idem (l : List ToolDescriptor) (t : ToolDescriptor) :
    registerTool (registerTool l t) t = registerTool l t := by
  induction l with
  | nil => simp [registerTool, mergeTool_self]
  | cons a as ih =>
    by_cases ha : a.id = t.id
    · simp only [registerTool, if_pos ha,
        if_pos (mergeTool_id_of_eq a t ha), mergeTool_merge]
    · simp only [registerTool, if_neg ha, ih]

lemma registerTool_length (l : List ToolDescriptor) (t : ToolDescriptor) :
    (registerTool l t).length = l.length ∨ (registerTool l t).length = l.length + 1 := by
  induction l with
  | nil => right; rfl
  | cons a as ih =>
    by_cases ha : a.id = t.id
    · left; simp [registerTool, if_pos ha]
    · rcases ih with h | h
      · left; simp [registerTool, if_neg ha, h]
      · right; simp [registerTool, if_neg ha, h]

/-- C7: tool registration is an order-preserving idempotent upsert.
Re-registering an existing id shallow-merges into the entry in place, a
new id appends at the end, registering twice is the same as once (in
particular an identical payload leaves the stored descriptor equal to the
input, since `mergeTool t t = t`), and the list never shrinks. -/
theorem registry_upsert_spec (l pre post : List ToolDescriptor) (e t : ToolDescriptor) :
    (l = pre ++ e :: post → e.id = t.id → (∀ x ∈ pre, x.id ≠ t.id) →
      registerTool l t = pre ++ mergeTool e t :: post) ∧
    ((∀ x ∈ l, x.id ≠ t.id) → registerTool l t = l ++ [t]) ∧
    registerTool (registerTool l t) t = registerTool l t ∧
    mergeTool t t = t ∧
    ((registerTool l t).length = l.length ∨ (registerTool l t).length = l.length + 1) := by
  refine ⟨?_, ?_, registerTool_idem l t, mergeTool_self t, registerTool_length l t⟩
  · intro hl he hpre
    subst hl
    exact registerTool_update pre post e t he hpre
  · exact registerTool_append l t

/-- Witness for C7 at concrete inputs: a fresh registration of the shipped
file-processor tool appends it, registering it again over itself merges in
place and is a no-op. -/
theorem registry_upsert_spec_witness :
    registerTool [] fileProcessorTool = [fileProcessorTool] ∧
    registerTool [fileProcessorTool] fileProcessorTool =
      [mergeTool fileProcessorTool fileProcessorTool] ∧
    registerTool (registerTool [] fileProcessorTool) fileProcessorTool =
      registerTool [] fileProcessorTool ∧
    mergeTool fileProcessorTool fileProcessorTool = fileProcessorTool := by
  have h0 := registry_upsert_spec [] [] [] fileProcessorTool fileProcessorTool
  have h1 := registry_upsert_spec [fileProcessorTool] [] [] fileProcessorTool fileProcessorTool
  exact ⟨h0.2.1 (fun x hx => absurd hx (List.not_mem_nil x)),
    h1.1 rfl rfl (fun x hx => absurd hx (List.not_mem_nil x)),
    h0.2.2.1, h0.2.2.2.1⟩

/-- A tool descriptor registered with no id at all (as the registry accepts
directly). -/
def unidentifiedTool : ToolDescriptor :=
  { id := none
    name := some "My Nice Tool"
    version := none
    description := none
    type := none
    apiEndpoint := none
    capabilities := none
    defaultParams := none
    outputs := none
    executionConfig := none }

/-- C9 counterexample: `registerTool` stores an id-less tool exactly as
given — the stored descriptor's id is still `undefined`, no slug of the
name is derived by the registry. -/
theorem registry_no_slug_counterexample :
    registerTool [] unidentifiedTool = [unidentifiedTool] ∧
    unidentifiedTool.name = some "My Nice Tool" ∧
    unidentifiedTool.id = none := ⟨rfl, rfl, rfl⟩

/-- C9 amended: the registry stores a tool without an id as-is; deriving a
missing id by slugifying the name happens in the tool-definition generator
(`generateToolDefinition`), not in `registerTool`. -/
theorem registry_stores_asIs_slug_in_generator (l : List ToolDescriptor) (t : ToolDescriptor)
    (n : String) (hfresh : ∀ x ∈ l, x.id ≠ t.id) (hid : t.id = none) (hname : t.name = some n) :
    registerTool l t = l ++ [t] ∧
    deriveToolId t = Except.ok { t with id := some (slugAux false (jsToLower n).data).asString } := by
  refine ⟨registerTool_append l t hfresh, ?_⟩
  simp [deriveToolId, jsFalsyStr, hid, hname]

/-- Witness for C9's amended statement: the id-less example tool is stored
unchanged, and the generator would derive the slug `my-nice-tool`. -/
theorem registry_stores_asIs_slug_in_generator_witness :
    registerTool [] unidentifiedTool = [unidentifiedTool] ∧
    deriveToolId unidentifiedTool =
      Except.ok { unidentifiedTool with id := some "my-nice-tool" } := by
  have h := registry_stores_asIs_slug_in_generator [] unidentifiedTool "My Nice Tool"
    (fun x hx => absurd hx (List.not_mem_nil x)) rfl rfl
  exact ⟨h.1, h.2⟩

/-! ## Object-merge lemmas and the input-params claims -/

lemma lookup_setKey (o : JObj) (k : String) (v : JVal) (k' : String) :
    lookupObj (setKey o k v) k' = if k' = k then some v else lookupObj o k' := by
  induction o with
  | nil =>
    by_cases h : k' = k
    · subst h; simp [setKey, lookupObj]
    · simp [setKey, lookupObj, h, Ne.symm h]
  | cons p rest ih =>
    obtain ⟨k0, v0⟩ := p
    by_cases h0 : k0 = k
    · subst h0
      by_cases h : k' = k0
      · subst h; simp [setKey, lookupObj]
      · simp [setKey, lookupObj, h, Ne.symm h]
    · by_cases h : k' = k0
      · subst h
        simp [setKey, lookupObj, h0, Ne.symm h0, ih]
      · simp [setKey, lookupObj, h0, h, Ne.symm h, ih]

lemma lookup_eq_none_of_not_mem_keys (o : JObj) (k : String) (h : k ∉ o.map Prod.fst) :
    lookupObj o k = none := by
  induction o with
  | nil => rfl
  | cons p rest ih =>
    obtain ⟨k0, v0⟩ := p
    simp only [List.map_cons, List.mem_cons, not_or] at h
    simp only [lookupObj, if_neg (fun hh : k0 = k => h.1 hh.symm)]
    exact ih h.2

lemma lookup_objAssign (t s : JObj) (hs : (s.map Prod.fst).Nodup) (k : String) :
    lookupObj (objAssign t s) k = ((lookupObj s k).orElse (fun _ => lookupObj t k)) := by
  induction s generalizing t with
  | nil => rfl
  | cons p rest ih =>
    obtain ⟨k0, v0⟩ := p
    simp only [List.map_cons, List.nodup_cons] at hs
    have step : objAssign t ((k0, v0) :: rest) = objAssign (setKey t k0 v0) rest := rfl
    rw [step, ih (setKey t k0 v0) hs.2]
    by_cases hk : k = k0
    · subst hk
      have hnone : lookupObj rest k = none :=
        lookup_eq_none_of_not_mem_keys rest k hs.1
      simp [lookupObj, hnone, lookup_setKey, Option.orElse]
    · simp only [lookup_setKey, if_neg hk, lookupObj, if_neg (fun hh : k0 = k => hk hh.symm)]

lemma entityParams_keys_nodup (intent : Intent) (entities : Entities) :
    ((entityParams intent entities).map Prod.fst).Nodup := by
  obtain ⟨fs, ds, ls, vs⟩ := entities
  cases intent <;> cases fs <;> cases ds <;> cases ls <;> cases vs <;> simp [entityParams]

/-- The entities extracted from the running example query. -/
def salesEntities : Entities :=
  { files := ["sales.csv"]
    dataTypes := ["tabular"]
    codeLanguages := []
    visualizationTypes := ["bar_chart"] }

/-- C2 counterexample: for FILE_OPERATION with an extracted file against
the shipped file-processor tool (whose `defaultParams.filePath` is the
empty string), the built input params carry the entity-derived file, not
the tool's default — the tool default does not win the collision. -/
theorem inputParams_tool_default_loses :
    lookupObj (determineInputParams Intent.FILE_OPERATION salesEntities fileProcessorTool)
      "filePath" = some (JVal.s "sales.csv") ∧
    lookupObj (fileProcessorTool.defaultParams.getD []) "filePath" = some (JVal.s "") ∧
    some (JVal.s "sales.csv") ≠ some (JVal.s "") := by
  refine ⟨rfl, rfl, by simp⟩

/-- C2 amended: input params start from the tool's own default params and
are overlaid with the intent-specific entity-derived params, so on a key
collision the entity-derived value wins; keys only in the tool defaults
survive. -/
theorem determineInputParams_spec (intent : Intent) (entities : Entities)
    (tool : ToolDescriptor) (k : String) :
    lookupObj (determineInputParams intent entities tool) k =
      ((lookupObj (entityParams intent entities) k).orElse
        (fun _ => lookupObj (tool.defaultParams.getD []) k)) := by
  unfold determineInputParams
  cases hdp : tool.defaultParams with
  | none =>
    simp only [Option.getD]
    cases lookupObj (entityParams intent entities) k <;> simp [lookupObj, Option.orElse]
  | some dp =>
    simp only [Option.getD]
    exact lookup_objAssign dp (entityParams intent entities)
      (entityParams_keys_nodup intent entities) k

/-! ## Classifier claims -/

/-- The running example query of the end-to-end property. -/
def demoQuery : String := "Extract data from sales.csv and create a bar chart"

/-- C1 counterexample: on the example query the classifier also fires
FILE_OPERATION (the query contains the FILE_OPERATION keyword `csv` inside
`sales.csv`), so the intent list is not `[DATA_PROCESSING,
VISUALIZATION]`. -/
theorem analyze_demo_intents_counterexample :
    (analyzeRequest [] demoQuery).intents =
      [Intent.FILE_OPERATION, Intent.DATA_PROCESSING, Intent.VISUALIZATION] ∧
    (analyzeRequest [] demoQuery).intents ≠
      [Intent.DATA_PROCESSING, Intent.VISUALIZATION] := by
  exact ⟨by decide, by decide⟩

/-- C1 amended: for the example query, classification returns intents
exactly `[FILE_OPERATION, DATA_PROCESSING, VISUALIZATION]` (the keyword
`csv` also triggers FILE_OPERATION), files `["sales.csv"]` and
visualization types `["bar_chart"]`. -/
theorem analyze_demo_query_spec :
    (analyzeRequest [] demoQuery).intents =
      [Intent.FILE_OPERATION, Intent.DATA_PROCESSING, Intent.VISUALIZATION] ∧
    (analyzeRequest [] demoQuery).entities.files = ["sales.csv"] ∧
    (analyzeRequest [] demoQuery).entities.visualizationTypes = ["bar_chart"] := by
  exact ⟨by decide, by decide, by decide⟩

lemma unknown_not_mem_detect (q : String) : Intent.UNKNOWN ∉ detectIntents q := by
  intro h
  simp only [detectIntents, List.mem_map] at h
  obtain ⟨p, hp, hp1⟩ := h
  have hmem := (List.mem_filter.mp hp).1
  simp only [intentKeywordTable, List.mem_cons, List.not_mem_nil] at hmem
  rcases hmem with h' | h' | h' | h' | h' | h' | h' | h' <;> simp_all

/-- The number of non-empty entity categories (as a rational, for the
confidence formula). -/
def entityCategoryCount (e : Entities) : ℚ :=
  (if e.files.length > 0 then 1 else 0) +
  (if e.dataTypes.length > 0 then 1 else 0) +
  (if e.codeLanguages.length > 0 then 1 else 0) +
  (if e.visualizationTypes.length > 0 then 1 else 0)

lemma calculateConfidence_closed (intents : List Intent) (e : Entities) :
    calculateConfidence intents e =
      min ((if intents.contains Intent.UNKNOWN then 0 else 2/5) +
        3/20 * entityCategoryCount e) 1 := by
  unfold calculateConfidence entityCategoryCount
  cases h : intents.contains Intent.UNKNOWN <;> simp only [h, Bool.not_false, Bool.not_true,
    if_true, if_false, Bool.false_eq_true, Bool.true_eq_false] <;> split_ifs <;> norm_num

lemma classifyIntents_ne_nil (q : String) : classifyIntents q ≠ [] := by
  show (if (detectIntents q).isEmpty = true then [Intent.UNKNOWN] else detectIntents q) ≠ []
  split
  · simp
  · next hne => exact fun hc => hne (by simp [hc, List.isEmpty_iff])

lemma classifyIntents_contains_unknown_iff (q : String) :
    (classifyIntents q).contains Intent.UNKNOWN = true ↔
      classifyIntents q = [Intent.UNKNOWN] := by
  show (if (detectIntents q).isEmpty = true then [Intent.UNKNOWN] else detectIntents q).contains
      Intent.UNKNOWN = true ↔
    (if (detectIntents q).isEmpty = true then [Intent.UNKNOWN] else detectIntents q) =
      [Intent.UNKNOWN]
  split
  · simp
  · next hne =>
    constructor
    · intro hc
      exact absurd (List.elem_iff.mp hc) (unknown_not_mem_detect q)
    · intro hc
      exact absurd (hc ▸ List.mem_cons_self Intent.UNKNOWN []) (unknown_not_mem_detect q)

/-- C8: classification always yields a non-empty intent list, with
`[UNKNOWN]` exactly when no keyword fired; the reported confidence is 0.4
for a non-UNKNOWN intent list plus 0.15 per non-empty entity category,
capped at 1; in particular it is 0 when nothing was recognized. -/
theorem classifier_confidence_spec (registryTools : List ToolDescriptor) (q : String) :
    (analyzeRequest registryTools q).intents ≠ [] ∧
    (detectIntents q = [] → (analyzeRequest registryTools q).intents = [Intent.UNKNOWN]) ∧
    ((analyzeRequest registryTools q).intents = [Intent.UNKNOWN] ∧
        entityCategoryCount (analyzeEntities q) = 0 →
      (analyzeRequest registryTools q).confidence = 0) ∧
    (analyzeRequest registryTools q).confidence =
      min ((if (analyzeRequest registryTools q).intents = [Intent.UNKNOWN] then 0 else 2/5) +
        3/20 * entityCategoryCount (analyzeEntities q)) 1 := by
  have hint : (analyzeRequest registryTools q).intents = classifyIntents q := rfl
  have hconf : (analyzeRequest registryTools q).confidence =
      calculateConfidence (classifyIntents q) (analyzeEntities q) := rfl
  have hformula : (analyzeRequest registryTools q).confidence =
      min ((if (analyzeRequest registryTools q).intents = [Intent.UNKNOWN] then 0 else 2/5) +
        3/20 * entityCategoryCount (analyzeEntities q)) 1 := by
    rw [hconf, hint, calculateConfidence_closed]
    by_cases hcase : classifyIntents q = [Intent.UNKNOWN]
    · rw [(classifyIntents_contains_unknown_iff q).mpr hcase, if_pos hcase]
      simp
    · have hc : (classifyIntents q).contains Intent.UNKNOWN = false := by
        rw [Bool.eq_false_iff]
        exact fun hc => hcase ((classifyIntents_contains_unknown_iff q).mp hc)
      rw [hc, if_neg hcase]
      simp
  refine ⟨hint ▸ classifyIntents_ne_nil q, ?_, ?_, hformula⟩
  · intro hd
    rw [hint]
    unfold classifyIntents
    simp [hd]
  · rintro ⟨h1, h2⟩
    rw [hformula, h1, h2]
    norm_num

/-- Witness for C8 at a keyword-free, entity-free query: `[UNKNOWN]`
intents and confidence 0. -/
theorem classifier_confidence_spec_witness :
    (analyzeRequest [] "hello").intents = [Intent.UNKNOWN] ∧
    (analyzeRequest [] "hello").confidence = 0 := by
  have h := classifier_confidence_spec [] "hello"
  have h1 := h.2.1 (by decide)
  have hf : (analyzeEntities "hello").files = [] := by decide
  have hd : (analyzeEntities "hello").dataTypes = [] := by decide
  have hl : (analyzeEntities "hello").codeLanguages = [] := by decide
  have hv : (analyzeEntities "hello").visualizationTypes = [] := by decide
  have hcount : entityCategoryCount (analyzeEntities "hello") = 0 := by
    simp [entityCategoryCount, hf, hd, hl, hv]
  exact ⟨h1, h.2.2.1 ⟨h1, hcount⟩⟩

/-! ## Matcher claims -/

instance : IsTotal MatchedTool (fun a b => b.score ≤ a.score) :=
  ⟨fun a b => Nat.le_total b.score a.score⟩

instance : IsTrans MatchedTool (fun a b => b.score ≤ a.score) :=
  ⟨fun _ _ _ hab hbc => Nat.le_trans hbc hab⟩

lemma mem_sortByScoreDesc {x : MatchedTool} {l : List MatchedTool} :
    x ∈ sortByScoreDesc l ↔ x ∈ l :=
  (List.perm_insertionSort _ l).mem_iff

lemma head_sortByScoreDesc (l : List MatchedTool) (m : MatchedTool)
    (h : (sortByScoreDesc l).head? = some m) :
    (∃ pre post, l = pre ++ m :: post ∧ ∀ x ∈ pre, x.score < m.score) ∧
    ∀ x ∈ l, x.score ≤ m.score := by
  induction l generalizing m with
  | nil => simp [sortByScoreDesc, List.insertionSort] at h
  | cons a t ih =>
    rw [sortByScoreDesc, List.insertionSort] at h
    cases hs : List.insertionSort (fun x y : MatchedTool => y.score ≤ x.score) t with
    | nil =>
      rw [hs] at h
      simp only [List.orderedInsert, List.head?, Option.some.injEq] at h
      subst h
      have ht : t = [] := by
        have hp := List.perm_insertionSort (fun x y : MatchedTool => y.score ≤ x.score) t
        rw [hs] at hp
        have : t.length = 0 := by simpa using hp.length_eq.symm
        exact List.length_eq_zero.mp this
      subst ht
      exact ⟨⟨[], [], rfl, by simp⟩, by simp⟩
    | cons m' r' =>
      rw [hs] at h
      have hhead : (sortByScoreDesc t).head? = some m' := by
        rw [sortByScoreDesc, hs]; rfl
      by_cases hr : m'.score ≤ a.score
      · rw [List.orderedInsert, if_pos hr] at h
        simp only [List.head?, Option.some.injEq] at h
        subst h
        obtain ⟨-, hbound⟩ := ih m' hhead
        refine ⟨⟨[], t, rfl, by simp⟩, ?_⟩
        intro x hx
        rcases List.mem_cons.mp hx with hx | hx
        · subst hx; exact Nat.le_refl _
        · exact Nat.le_trans (hbound x hx) hr
      · rw [List.orderedInsert, if_neg hr] at h
        have hm : m' = m := by simpa using h
        subst hm
        obtain ⟨⟨pre, post, hdecomp, hpre⟩, hbound⟩ := ih m' hhead
        have ha : a.score < m'.score := by omega
        refine ⟨⟨a :: pre, post, by rw [hdecomp]; rfl, ?_⟩, ?_⟩
        · intro x hx
          rcases List.mem_cons.mp hx with hx | hx
          · subst hx; exact ha
          · exact hpre x hx
        · intro x hx
          rcases List.mem_cons.mp hx with hx | hx
          · subst hx; exact Nat.le_of_lt ha
          · exact hbound x hx

/-- The empty `capabilities: {}` object. -/
def emptyCapabilities : Capabilities :=
  { intents := none, fileTypes := none, dataTypes := none, languages := none,
    visualizationTypes := none }

/-- C5: every matched tool comes from the registry, has intent overlap with
the query intents, carries exactly the weighted entity-overlap score
`10·files + 5·dataTypes + 8·languages + 7·visualizationTypes`, and that
score is strictly positive (so a tool with an empty capabilities object
never appears); the result is sorted by score, descending. -/
theorem matcher_spec (registryTools : List ToolDescriptor) (intents : List Intent)
    (entities : Entities) :
    (∀ e ∈ matchToolsToIntents registryTools intents entities,
      e.tool ∈ registryTools ∧
      intents.any (fun i => declaresIntent e.tool i) = true ∧
      e.score = calculateToolMatchScore e.tool entities ∧
      0 < e.score ∧
      e.tool.capabilities ≠ some emptyCapabilities) ∧
    (matchToolsToIntents registryTools intents entities).Pairwise
      (fun a b => b.score ≤ a.score) := by
  constructor
  · intro e he
    have he' : e ∈ registryTools.filterMap (fun tool =>
        if intents.any (fun intent => declaresIntent tool intent) then
          let score := calculateToolMatchScore tool entities
          if score > 0 then some { tool := tool, score := score } else none
        else none) := mem_sortByScoreDesc.mp he
    obtain ⟨tool, htool, hf⟩ := List.mem_filterMap.mp he'
    by_cases h1 : intents.any (fun intent => declaresIntent tool intent)
    · rw [if_pos h1] at hf
      by_cases h2 : calculateToolMatchScore tool entities > 0
      · simp only [h2, if_true, Option.some.injEq] at hf
        subst hf
        refine ⟨htool, h1, rfl, h2, ?_⟩
        intro hcaps
        dsimp only at hcaps
        obtain ⟨i, hi, hdecl⟩ := List.any_eq_true.mp h1
        rw [declaresIntent, hcaps] at hdecl
        simp [emptyCapabilities] at hdecl
      · simp [h2] at hf
    · simp [h1] at hf
  · exact List.sorted_insertionSort _ _

/-- Witness for C5: against a registry holding the shipped file-processor
tool, a DATA_PROCESSING query with a csv file and tabular data matches it
with score 15 = 10 + 5. -/
theorem matcher_spec_witness :
    fileProcessorTool ∈ [fileProcessorTool] ∧
    [Intent.DATA_PROCESSING].any (fun i => declaresIntent fileProcessorTool i) = true ∧
    (15 : Nat) = calculateToolMatchScore fileProcessorTool salesEntities ∧
    0 < (15 : Nat) ∧
    fileProcessorTool.capabilities ≠ some emptyCapabilities := by
  have hmem : (⟨fileProcessorTool, 15⟩ : MatchedTool) ∈
      matchToolsToIntents [fileProcessorTool] [Intent.DATA_PROCESSING] salesEntities := by
    rw [show matchToolsToIntents [fileProcessorTool] [Intent.DATA_PROCESSING] salesEntities =
      [⟨fileProcessorTool, 15⟩] from rfl]
    exact List.mem_singleton.mpr rfl
  exact (matcher_spec [fileProcessorTool] [Intent.DATA_PROCESSING] salesEntities).1
    ⟨fileProcessorTool, 15⟩ hmem

/-! ## Plan-builder claims -/

/-- The number of intents the plan loop addresses: non-UNKNOWN intents for
which a best tool exists. -/
def addressedCount (intents : List Intent) (matchedTools : List MatchedTool) : Nat :=
  (intents.filter
    (fun i => !(i == Intent.UNKNOWN) && (findBestToolForIntent i matchedTools).isSome)).length

lemma buildSteps_stepIds (entities : Entities) (mts : List MatchedTool) :
    ∀ (intents : List Intent) (acc : List PlanStep),
    (buildSteps entities mts intents acc).map (fun st => st.stepId) =
      acc.map (fun st => st.stepId) ++
        (List.range (addressedCount intents mts)).map
          (fun k => "step_" ++ toString (acc.length + k + 1))
  | [], acc => by simp [buildSteps, addressedCount]
  | i :: rest, acc => by
    by_cases hu : i = Intent.UNKNOWN
    · subst hu
      rw [buildSteps, if_pos rfl, buildSteps_stepIds entities mts rest acc]
      simp [addressedCount, List.filter_cons]
    · rw [buildSteps, if_neg hu]
      cases hbest : findBestToolForIntent i mts with
      | none =>
        simp only [hbest]
        rw [buildSteps_stepIds entities mts rest acc]
        have : addressedCount (i :: rest) mts = addressedCount rest mts := by
          simp [addressedCount, List.filter_cons, hbest, hu]
        rw [this]
      | some mt =>
        simp only [hbest]
        rw [buildSteps_stepIds entities mts rest (acc ++ [mkPlanStep (acc.length + 1) i entities mt])]
        have hcount : addressedCount (i :: rest) mts = addressedCount rest mts + 1 := by
          simp [addressedCount, List.filter_cons, hbest, hu]
        rw [hcount, List.range_succ_eq_map]
        simp only [List.map_append, List.map_cons, List.map_nil, List.map_map,
          List.length_append, List.length_cons, List.length_nil, List.append_assoc,
          List.cons_append, List.nil_append, mkPlanStep, Function.comp]
        congr 1
        congr 1
        apply List.map_congr_left
        intro k _
        simp only [Function.comp_apply]
        have : acc.length + (0 + 1) + k + 1 = acc.length + (k + 1) + 1 := by omega
        rw [this]

lemma buildSteps_length (entities : Entities) (mts : List MatchedTool)
    (intents : List Intent) (acc : List PlanStep) :
    (buildSteps entities mts intents acc).length = acc.length + addressedCount intents mts := by
  have h := congrArg List.length (buildSteps_stepIds entities mts intents acc)
  simpa using h

/-- The shape of the data-flow map as a function of the step-id chain. -/
def chainEdges : List String → List DataFlowEdge
  | a :: b :: rest =>
    { fromStep := a, toStep := b,
      mappings := [{ fromParam := "result", toParam := "input" }] } :: chainEdges (b :: rest)
  | _ => []

lemma createDataFlowMap_eq_chainEdges :
    ∀ st : List PlanStep, createDataFlowMap st = chainEdges (st.map (fun s => s.stepId))
  | [] => rfl
  | [_] => rfl
  | s1 :: s2 :: rest => by
    simp only [createDataFlowMap, List.map_cons, chainEdges]
    rw [← List.map_cons (fun s => s.stepId) s2 rest]
    exact congrArg (_ :: ·) (createDataFlowMap_eq_chainEdges (s2 :: rest))

lemma chainEdges_length : ∀ ids : List String, (chainEdges ids).length = ids.length - 1
  | [] => rfl
  | [_] => rfl
  | a :: b :: rest => by
    have h := chainEdges_length (b :: rest)
    simp only [chainEdges, List.length_cons] at h ⊢
    omega

/-- C6: a plan built with a non-empty matchedTools list from a duplicate-free
intent list with N addressed intents has exactly N steps with ids
`step_1 … step_N` in emission order, N−1 data-flow edges chaining each
consecutive step pair via the single mapping `result → input`, and its
executable flag is true iff at least one step was emitted. -/
theorem plan_shape_spec (planId : String) (analysis : Analysis)
    (hmt : analysis.matchedTools ≠ []) (_hnd : analysis.intents.Nodup) :
    ∃ st, (createExecutionPlan planId analysis).steps = some st ∧
      st.length = addressedCount analysis.intents analysis.matchedTools ∧
      st.map (fun s => s.stepId) =
        (List.range (addressedCount analysis.intents analysis.matchedTools)).map
          (fun k => "step_" ++ toString (k + 1)) ∧
      (createExecutionPlan planId analysis).dataFlow =
        some (chainEdges (st.map (fun s => s.stepId))) ∧
      (chainEdges (st.map (fun s => s.stepId))).length =
        addressedCount analysis.intents analysis.matchedTools - 1 ∧
      ((createExecutionPlan planId analysis).canExecute = true ↔ st ≠ []) := by
  have hne : analysis.matchedTools.isEmpty = false := by
    cases h : analysis.matchedTools with
    | nil => exact absurd h hmt
    | cons a l => rfl
  refine ⟨buildSteps analysis.entities analysis.matchedTools analysis.intents [], ?_, ?_, ?_, ?_, ?_, ?_⟩
  · simp [createExecutionPlan, hne]
  · simpa using buildSteps_length analysis.entities analysis.matchedTools analysis.intents []
  · have h := buildSteps_stepIds analysis.entities analysis.matchedTools analysis.intents []
    simpa using h
  · simp only [createExecutionPlan, hne, Bool.false_eq_true, if_false]
    rw [createDataFlowMap_eq_chainEdges]
  · rw [chainEdges_length, List.length_map]
    rw [buildSteps_length analysis.entities analysis.matchedTools analysis.intents []]
    simp
  · simp only [createExecutionPlan, hne, Bool.false_eq_true, if_false]
    simp [List.length_pos, decide_eq_true_iff]

/-- The end-to-end analysis of the example query against a registry holding
both shipped example tools. -/
def demoAnalysis : Analysis :=
  analyzeRequest [fileProcessorTool, visualizationCreatorTool] demoQuery

/-- Witness for C6: the example analysis addresses three intents and yields
a three-step chained plan. -/
theorem plan_shape_spec_witness :
    ∃ st, (createExecutionPlan "plan_1" demoAnalysis).steps = some st ∧
      st.length = addressedCount demoAnalysis.intents demoAnalysis.matchedTools ∧
      st.map (fun s => s.stepId) =
        (List.range (addressedCount demoAnalysis.intents demoAnalysis.matchedTools)).map
          (fun k => "step_" ++ toString (k + 1)) ∧
      (createExecutionPlan "plan_1" demoAnalysis).dataFlow =
        some (chainEdges (st.map (fun s => s.stepId))) ∧
      (chainEdges (st.map (fun s => s.stepId))).length =
        addressedCount demoAnalysis.intents demoAnalysis.matchedTools - 1 ∧
      ((createExecutionPlan "plan_1" demoAnalysis).canExecute = true ↔ st ≠ []) := by
  have hmt : demoAnalysis.matchedTools ≠ [] := by
    rw [show demoAnalysis.matchedTools =
      [⟨visualizationCreatorTool, 22⟩, ⟨fileProcessorTool, 15⟩] from rfl]
    exact List.cons_ne_nil _ _
  have hnd : demoAnalysis.intents.Nodup := by
    rw [show demoAnalysis.intents =
      [Intent.FILE_OPERATION, Intent.DATA_PROCESSING, Intent.VISUALIZATION] from rfl]
    decide
  exact plan_shape_spec "plan_1" demoAnalysis hmt hnd

lemma buildSteps_mem (entities : Entities) (mts : List MatchedTool) :
    ∀ (intents : List Intent) (acc : List PlanStep) (step : PlanStep),
    step ∈ buildSteps entities mts intents acc →
    step ∈ acc ∨ ∃ i mt n, findBestToolForIntent i mts = some mt ∧
      step = mkPlanStep n i entities mt
  | [], _, _, h => Or.inl h
  | i :: rest, acc, step, h => by
    rw [buildSteps] at h
    by_cases hu : i = Intent.UNKNOWN
    · rw [if_pos hu] at h
      exact buildSteps_mem entities mts rest acc step h
    · rw [if_neg hu] at h
      cases hbest : findBestToolForIntent i mts with
      | none =>
        rw [hbest] at h
        exact buildSteps_mem entities mts rest acc step h
      | some mt =>
        rw [hbest] at h
        rcases buildSteps_mem entities mts rest _ step h with hacc | hex
        · rcases List.mem_append.mp hacc with h1 | h2
          · exact Or.inl h1
          · exact Or.inr ⟨i, mt, acc.length + 1, hbest, List.mem_singleton.mp h2⟩
        · exact Or.inr hex

/-- C10: every emitted step's tool is the best matched tool for the step's
intent: it is drawn from matchedTools, declares the intent in its
capabilities, no matched tool declaring the intent scores higher, and among
the declaring tools it is the first one attaining the maximal score
(stable-sort tie-break by matchedTools order). -/
theorem plan_best_tool_spec (planId : String) (analysis : Analysis)
    (st : List PlanStep) (hst : (createExecutionPlan planId analysis).steps = some st)
    (step : PlanStep) (hmem : step ∈ st) :
    ∃ mt, findBestToolForIntent step.intent analysis.matchedTools = some mt ∧
      mt ∈ analysis.matchedTools ∧
      declaresIntent mt.tool step.intent = true ∧
      step.toolId = mt.tool.id ∧
      (∀ mt' ∈ analysis.matchedTools, declaresIntent mt'.tool step.intent = true →
        mt'.score ≤ mt.score) ∧
      ∃ pre post,
        analysis.matchedTools.filter (fun x => declaresIntent x.tool step.intent) =
          pre ++ mt :: post ∧ ∀ x ∈ pre, x.score < mt.score := by
  have hne : analysis.matchedTools.isEmpty = false := by
    cases h : analysis.matchedTools.isEmpty
    · rfl
    · exfalso
      rw [createExecutionPlan] at hst
      rw [if_pos h] at hst
      exact Option.noConfusion hst
  have hst' : buildSteps analysis.entities analysis.matchedTools analysis.intents [] = st := by
    rw [createExecutionPlan] at hst
    rw [if_neg (by simp [hne])] at hst
    exact Option.some.inj hst
  rw [← hst'] at hmem
  rcases buildSteps_mem analysis.entities analysis.matchedTools analysis.intents [] step hmem with
    h0 | ⟨i, mt, n, hbest, hstep⟩
  · exact absurd h0 (List.not_mem_nil step)
  · have hintent : step.intent = i := by subst hstep; rfl
    have htool : step.toolId = mt.tool.id := by subst hstep; rfl
    rw [hintent]
    have hhead : (sortByScoreDesc (analysis.matchedTools.filter
        (fun x => declaresIntent x.tool i))).head? = some mt := hbest
    obtain ⟨⟨pre, post, hdecomp, hpre⟩, hbound⟩ :=
      head_sortByScoreDesc _ mt hhead
    have hmtmem : mt ∈ analysis.matchedTools.filter (fun x => declaresIntent x.tool i) := by
      rw [hdecomp]
      exact List.mem_append.mpr (Or.inr (List.mem_cons_self mt post))
    have hmtfilter := List.mem_filter.mp hmtmem
    refine ⟨mt, hbest, hmtfilter.1, hmtfilter.2, htool, ?_, pre, post, hdecomp, hpre⟩
    intro mt' hmt' hdecl
    exact hbound mt' (List.mem_filter.mpr ⟨hmt', hdecl⟩)

/-- Witness for C10: the first step of the example plan picks the
file-processor tool for FILE_OPERATION. -/
theorem plan_best_tool_spec_witness :
    ∃ st, (createExecutionPlan "plan_1" demoAnalysis).steps = some st ∧
      ∃ step ∈ st, ∃ mt,
        findBestToolForIntent step.intent demoAnalysis.matchedTools = some mt ∧
        mt ∈ demoAnalysis.matchedTools ∧
        declaresIntent mt.tool step.intent = true ∧
        step.toolId = mt.tool.id ∧
        (∀ mt' ∈ demoAnalysis.matchedTools, declaresIntent mt'.tool step.intent = true →
          mt'.score ≤ mt.score) ∧
        ∃ pre post,
          demoAnalysis.matchedTools.filter (fun x => declaresIntent x.tool step.intent) =
            pre ++ mt :: post ∧ ∀ x ∈ pre, x.score < mt.score := by
  have hs : buildSteps demoAnalysis.entities demoAnalysis.matchedTools demoAnalysis.intents [] =
      [mkPlanStep 1 Intent.FILE_OPERATION demoAnalysis.entities ⟨fileProcessorTool, 15⟩,
       mkPlanStep 2 Intent.DATA_PROCESSING demoAnalysis.entities ⟨visualizationCreatorTool, 22⟩,
       mkPlanStep 3 Intent.VISUALIZATION demoAnalysis.entities ⟨visualizationCreatorTool, 22⟩] :=
    rfl
  have hmem : mkPlanStep 1 Intent.FILE_OPERATION demoAnalysis.entities ⟨fileProcessorTool, 15⟩ ∈
      buildSteps demoAnalysis.entities demoAnalysis.matchedTools demoAnalysis.intents [] := by
    rw [hs]
    exact List.mem_cons_self _ _
  exact ⟨buildSteps demoAnalysis.entities demoAnalysis.matchedTools demoAnalysis.intents [],
    rfl, mkPlanStep 1 Intent.FILE_OPERATION demoAnalysis.entities ⟨fileProcessorTool, 15⟩, hmem,
    plan_best_tool_spec "plan_1" demoAnalysis _ rfl _ hmem⟩

/-! ## Executor claims -/

/-- C3: `executeRequest` on the non-executable plan built when no tools
matched (here: the example query against an empty registry) does not reach
its own `canExecute` guard: the entry log line reads `plan.steps.length`,
and the no-tools plan has no `steps` array, so a TypeError escapes instead
of the structured failure result carrying the plan's reason and
suggestions. -/
theorem executor_throws_on_nonexecutable_plan :
    (createExecutionPlan "plan_1" (analyzeRequest [] demoQuery)).canExecute = false ∧
    (createExecutionPlan "plan_1" (analyzeRequest [] demoQuery)).reason =
      some "No suitable tools found" ∧
    (createExecutionPlan "plan_1" (analyzeRequest [] demoQuery)).steps = none ∧
    executeRequest [] (createExecutionPlan "plan_1" (analyzeRequest [] demoQuery)) =
      Except.error "TypeError: Cannot read properties of undefined (reading \x27length\x27)" :=
  ⟨rfl, rfl, rfl, rfl⟩

/-- A tool for which `executeTool` has a succeeding strategy: an
`executionConfig` of type `http` or `command-line`, or the `mcp-server`
type with a declared endpoint. -/
def toolStrategyOk (tool : ToolDescriptor) : Bool :=
  match tool.executionConfig with
  | some config => config.type == "http" || config.type == "command-line"
  | none => tool.type == some "mcp-server" && tool.apiEndpoint.isSome

lemma executeTool_ok_of_strategyOk (tool : ToolDescriptor) (params : JObj)
    (h : toolStrategyOk tool = true) : ∃ v, executeTool tool params = Except.ok v := by
  unfold toolStrategyOk at h
  cases hc : tool.executionConfig with
  | some config =>
    rw [hc] at h
    have hform : executeTool tool params = executeDeclarativeTool config params := by
      unfold executeTool
      rw [hc]
    rw [hform]
    unfold executeDeclarativeTool
    by_cases h1 : config.type = "http"
    · rw [h1]
      exact ⟨_, rfl⟩
    · by_cases h2 : config.type = "command-line"
      · rw [h2]
        exact ⟨_, rfl⟩
      · simp [h1, h2] at h
  | none =>
    rw [hc] at h
    simp only [Bool.and_eq_true, beq_iff_eq, Option.isSome_iff_exists] at h
    obtain ⟨h1, x, hx⟩ := h
    have hform : executeTool tool params =
        if tool.type = some "mcp-server" then executeMcpServer tool params
        else Except.error
          ("Tool " ++ optStr tool.id ++ " doesn\x27t have a valid execution mechanism") := by
      unfold executeTool
      rw [hc]
    rw [hform, if_pos h1]
    unfold executeMcpServer
    rw [hx]
    exact ⟨_, rfl⟩

lemma lookupSR_eq_none_of_not_mem (m : List (String × StepResult)) (k : String)
    (h : k ∉ m.map Prod.fst) : lookupSR m k = none := by
  induction m with
  | nil => rfl
  | cons p rest ih =>
    obtain ⟨k0, v0⟩ := p
    simp only [List.map_cons, List.mem_cons, not_or] at h
    simp only [lookupSR, if_neg (fun hh : k0 = k => h.1 hh.symm)]
    exact ih h.2

lemma setSR_append_of_fresh (m : List (String × StepResult)) (k : String) (r : StepResult)
    (h : lookupSR m k = none) : setSR m k r = m ++ [(k, r)] := by
  induction m with
  | nil => rfl
  | cons p rest ih =>
    obtain ⟨k0, v0⟩ := p
    by_cases hk : k0 = k
    · simp [lookupSR, hk] at h
    · simp only [lookupSR, if_neg hk] at h
      simp only [setSR, if_neg hk, List.cons_append]
      exact congrArg _ (ih h)

lemma lookupSR_append (m1 m2 : List (String × StepResult)) (k : String) :
    lookupSR (m1 ++ m2) k = ((lookupSR m1 k).orElse (fun _ => lookupSR m2 k)) := by
  induction m1 with
  | nil => rfl
  | cons p rest ih =>
    obtain ⟨k0, v0⟩ := p
    by_cases hk : k0 = k
    · simp [lookupSR, hk, Option.orElse]
    · simp only [List.cons_append, lookupSR, if_neg hk]
      exact ih

lemma lookupSR_single_ne (k0 : String) (r : StepResult) (k : String) (h : k0 ≠ k) :
    lookupSR [(k0, r)] k = none := by
  simp [lookupSR, if_neg h]

lemma execSteps_ok_prefix (tools : List ToolDescriptor) (flows : List DataFlowEdge) :
    ∀ (before : List PlanStep) (rest : List PlanStep) (acc : List (String × StepResult)),
    (∀ s ∈ before, ∃ t, getToolInstance tools s.toolId = some t ∧ toolStrategyOk t = true) →
    (∀ s ∈ before, lookupSR acc s.stepId = none) →
    (before.map (fun s => s.stepId)).Nodup →
    ∃ acc', execSteps tools (some flows) (before ++ rest) acc =
        execSteps tools (some flows) rest acc' ∧
      acc'.map Prod.fst = acc.map Prod.fst ++ before.map (fun s => s.stepId) ∧
      (∀ s ∈ before, ∃ r, lookupSR acc' s.stepId = some r ∧ r.success = true) ∧
      (∀ k, k ∉ before.map (fun s => s.stepId) → lookupSR acc' k = lookupSR acc k)
  | [], rest, acc, _, _, _ => ⟨acc, rfl, by simp, by simp, fun _ _ => rfl⟩
  | s :: bs, rest, acc, htools, hfresh, hnd => by
    obtain ⟨t, hfind, hok⟩ := htools s (List.mem_cons_self s bs)
    obtain ⟨v, hexec⟩ :=
      executeTool_ok_of_strategyOk t (transformInputParams s acc flows) hok
    have hfr : lookupSR acc s.stepId = none := hfresh s (List.mem_cons_self s bs)
    have hstep : execSteps tools (some flows) ((s :: bs) ++ rest) acc =
        execSteps tools (some flows) (bs ++ rest)
          (acc ++ [(s.stepId, { success := true, result := some v, error := none })]) := by
      rw [List.cons_append]
      simp only [execSteps, hfind, hexec]
      rw [setSR_append_of_fresh acc s.stepId _ hfr]
    simp only [List.map_cons, List.nodup_cons] at hnd
    have hfresh' : ∀ s' ∈ bs,
        lookupSR (acc ++ [(s.stepId, { success := true, result := some v, error := none })])
          s'.stepId = none := by
      intro s' hs'
      rw [lookupSR_append, hfresh s' (List.mem_cons_of_mem s hs'),
        lookupSR_single_ne _ _ _ (fun hh : s.stepId = s'.stepId => hnd.1
          (by rw [hh]; exact List.mem_map_of_mem (fun x => x.stepId) hs'))]
      rfl
    obtain ⟨acc', hsplit, hkeys, hsucc, hpres⟩ :=
      execSteps_ok_prefix tools flows bs rest
        (acc ++ [(s.stepId, { success := true, result := some v, error := none })])
        (fun s' hs' => htools s' (List.mem_cons_of_mem s hs')) hfresh' hnd.2
    refine ⟨acc', hstep.trans hsplit, ?_, ?_, ?_⟩
    · rw [hkeys]
      simp [List.append_assoc]
    · intro s' hs'
      rcases List.mem_cons.mp hs' with hh | hh
      · subst hh
        have hnotbs : s'.stepId ∉ bs.map (fun x => x.stepId) := hnd.1
        rw [hpres s'.stepId hnotbs, lookupSR_append, hfr]
        exact ⟨{ success := true, result := some v, error := none }, by simp [lookupSR], rfl⟩
      · exact hsucc s' hh
    · intro k hk
      simp only [List.map_cons, List.mem_cons, not_or] at hk
      rw [hpres k hk.2, lookupSR_append, lookupSR_single_ne _ _ _ (fun hh => hk.1 hh.symm)]
      cases lookupSR acc k <;> rfl

/-- C4: executing a plan whose first failing step references a tool id
absent from the registry (all earlier steps having present, executable
tools) returns overall success=false with the error `Tool <id> not found`,
the step-result map holds exactly the results of the prior steps (all
successful) plus the failing step's failure, and no step after the failing
one has any result. -/
theorem executor_missing_tool_spec (tools : List ToolDescriptor) (plan : ExecutionPlan)
    (before after : List PlanStep) (failStep : PlanStep) (flows : List DataFlowEdge)
    (hsteps : plan.steps = some (before ++ failStep :: after))
    (hexec : plan.canExecute = true)
    (hdf : plan.dataFlow = some flows)
    (hmiss : getToolInstance tools failStep.toolId = none)
    (hok : ∀ s ∈ before, ∃ t, getToolInstance tools s.toolId = some t ∧ toolStrategyOk t = true)
    (hnd : ((before ++ failStep :: after).map (fun s => s.stepId)).Nodup) :
    ∃ m, executeRequest tools plan = Except.ok
        { planId := plan.planId, success := false, stepResults := some m,
          error := some ("Tool " ++ optStr failStep.toolId ++ " not found"),
          reason := none, suggestedTools := none } ∧
      m.map Prod.fst = before.map (fun s => s.stepId) ++ [failStep.stepId] ∧
      (∀ s ∈ before, ∃ r, lookupSR m s.stepId = some r ∧ r.success = true) ∧
      (∀ s ∈ after, lookupSR m s.stepId = none) := by
  rw [List.map_append, List.map_cons, List.nodup_append] at hnd
  obtain ⟨hndA, hndC, hdisj⟩ := hnd
  rw [List.nodup_cons] at hndC
  obtain ⟨hfidB, hndB⟩ := hndC
  obtain ⟨acc', hsplit, hkeys, hsucc, hpres⟩ :=
    execSteps_ok_prefix tools flows before (failStep :: after) []
      hok (fun _ _ => rfl) hndA
  have hkeys' : acc'.map Prod.fst = before.map (fun s => s.stepId) := by simpa using hkeys
  have hfidfresh : lookupSR acc' failStep.stepId = none := by
    apply lookupSR_eq_none_of_not_mem
    rw [hkeys']
    intro hmem
    exact hdisj hmem (List.mem_cons_self _ _)
  have hfail : execSteps tools (some flows) (failStep :: after) acc' =
      (acc' ++ [(failStep.stepId,
          { success := false, result := none,
            error := some ("Tool " ++ optStr failStep.toolId ++ " not found") })],
        false, some ("Tool " ++ optStr failStep.toolId ++ " not found")) := by
    simp only [execSteps, hmiss]
    rw [setSR_append_of_fresh acc' failStep.stepId _ hfidfresh]
  refine ⟨acc' ++ [(failStep.stepId,
      { success := false, result := none,
        error := some ("Tool " ++ optStr failStep.toolId ++ " not found") })], ?_, ?_, ?_, ?_⟩
  · simp only [executeRequest, hsteps, hexec, Bool.not_true, Bool.false_eq_true, if_false]
    rw [hdf, hsplit, hfail]
  · rw [List.map_append, hkeys']
    rfl
  · intro s hs
    obtain ⟨r, hr, hrs⟩ := hsucc s hs
    refine ⟨r, ?_, hrs⟩
    rw [lookupSR_append, hr]
    rfl
  · intro s hs
    have hsid : s.stepId ∈ after.map (fun x => x.stepId) :=
      List.mem_map_of_mem (fun x => x.stepId) hs
    have h1 : lookupSR acc' s.stepId = none := by
      apply lookupSR_eq_none_of_not_mem
      rw [hkeys']
      intro hmem
      exact hdisj hmem (List.mem_cons_of_mem _ hsid)
    rw [lookupSR_append, h1,
      lookupSR_single_ne _ _ _ (fun hh : failStep.stepId = s.stepId => hfidB
        (by rw [hh]; exact hsid))]
    rfl

/-- A plan step invoking the shipped file-processor tool. -/
def okStep1 : PlanStep :=
  { stepId := "step_1", intent := Intent.FILE_OPERATION, toolId := some "file-processor",
    toolName := some "File Processor", inputParams := [], outputParams := [] }

/-- A plan step referencing a tool id absent from the registry. -/
def ghostStep : PlanStep :=
  { stepId := "step_2", intent := Intent.DATA_PROCESSING, toolId := some "ghost-tool",
    toolName := some "Ghost", inputParams := [], outputParams := [] }

/-- A trailing step that should never run. -/
def okStep3 : PlanStep :=
  { stepId := "step_3", intent := Intent.DATA_PROCESSING, toolId := some "file-processor",
    toolName := some "File Processor", inputParams := [], outputParams := [] }

/-- An executable plan whose second step references a missing tool. -/
def missingToolPlan : ExecutionPlan :=
  { planId := some "plan_weird", canExecute := true,
    steps := some [okStep1, ghostStep, okStep3], dataFlow := some [],
    unaddressedIntents := none, reason := none, suggestedTools := none }

/-- Witness for C4: running the three-step plan against a registry holding
only the file-processor stops at the ghost step. -/
theorem executor_missing_tool_spec_witness :
    ∃ m, executeRequest [fileProcessorTool] missingToolPlan = Except.ok
        { planId := missingToolPlan.planId, success := false, stepResults := some m,
          error := some ("Tool " ++ optStr ghostStep.toolId ++ " not found"),
          reason := none, suggestedTools := none } ∧
      m.map Prod.fst = [okStep1].map (fun s => s.stepId) ++ [ghostStep.stepId] ∧
      (∀ s ∈ [okStep1], ∃ r, lookupSR m s.stepId = some r ∧ r.success = true) ∧
      (∀ s ∈ [okStep3], lookupSR m s.stepId = none) := by
  refine executor_missing_tool_spec [fileProcessorTool] missingToolPlan [okStep1] [okStep3]
    ghostStep [] rfl rfl rfl rfl ?_ (by decide)
  intro s hs
  rw [List.mem_singleton.mp hs]
  exact ⟨fileProcessorTool, rfl, rfl⟩

